import Mathlib

/-!
Shallow embedding of the redmine_git repository's Task Scheduler and
Idempotent Synchronization Executor, together with proofs about the
specified behaviour.

Embedded components:

* `plugins/gitfetcher/config/config.go` — repository configuration,
  interval validation, config load/save with defaults.
* Go's `time.ParseDuration` as called by `RepoConfig.ParseInterval`
  (stdlib collaborator: sign, `"0"` special case, decimal segments with
  optional fraction and unit suffixes `ns/us/µs/μs/ms/s/m/h`; the 64-bit
  overflow guards are not modelled — durations are unbounded here — and
  the fractional part is computed by exact integer division where Go uses
  a float64 product, which agrees on all claim-relevant inputs).
* `plugins/gitfetcher/scheduler/scheduler.go` — the scheduler state with
  an explicit heap so that Go pointer sharing and copying are visible,
  plus a small-step transition system for the interleaving of worker
  goroutines, manual triggers, reloads and status reads.
* `plugins/github-sync/internal/sync/syncer.go`,
  `internal/storage/postgres.go`, `internal/webhook/server.go` and the
  Redmine `Issue.GetCustomFieldValue` helper.

Go `int` is modelled as `Int` (no overflow relevant to any statement),
`time.Time`/`time.Duration` as integer nanoseconds, Go maps as
association lists with overwrite-on-insert, and Go pointers to mutable
structs as indices into an explicit heap.
-/

namespace RedmineGit

/-! ## Model of Go time.ParseDuration (stdlib, called by ParseInterval) -/

/-- Numeric value of a decimal digit character. -/
def digitVal (c : Char) : Nat := c.toNat - 48

/-- Go `leadingInt`: consume leading decimal digits, accumulating their value. -/
def leadingInt : Nat → List Char → Nat × List Char
  | acc, [] => (acc, [])
  | acc, c :: cs =>
    if c.isDigit then leadingInt (acc * 10 + digitVal c) cs else (acc, c :: cs)

/-- Go `leadingFraction`: consume digits after the decimal point, returning
the fraction numerator and scale. -/
def leadingFraction : Nat → Nat → List Char → Nat × Nat × List Char
  | f, scale, [] => (f, scale, [])
  | f, scale, c :: cs =>
    if c.isDigit then leadingFraction (f * 10 + digitVal c) (scale * 10) cs
    else (f, scale, c :: cs)

/-- Go `unitMap`: nanosecond value of a duration unit suffix. -/
def unitValue (u : String) : Option Nat :=
  if u = "ns" then some 1
  else if u = "us" then some 1000
  else if u = "µs" then some 1000
  else if u = "μs" then some 1000
  else if u = "ms" then some 1000000
  else if u = "s" then some 1000000000
  else if u = "m" then some 60000000000
  else if u = "h" then some 3600000000000
  else none

/-- Split off the unit suffix: the maximal run of characters that are
neither digits nor a decimal point. -/
def spanUnit : List Char → List Char × List Char
  | [] => ([], [])
  | c :: cs =>
    if c = '.' ∨ c.isDigit then ([], c :: cs)
    else
      let (u, rest) := spanUnit cs
      (c :: u, rest)

/-- Go error quoting of a duration string (escaping of exotic characters
inside the quoted text is not modelled). -/
def goQuote (s : String) : String := "\"" ++ s ++ "\""

/-- One pass of Go ParseDuration's segment loop.  `fuel` only bounds the
recursion; every iteration consumes at least the (non-empty) unit suffix,
so `fuel = length + 1` never runs out. -/
def parseSegments (orig : String) : Nat → Nat → List Char → Except String Nat
  | 0, _, _ => Except.error ("time: invalid duration " ++ goQuote orig)
  | _ + 1, d, [] => Except.ok d
  | fuel + 1, d, c :: cs =>
    if ¬ (c = '.' ∨ c.isDigit) then
      Except.error ("time: invalid duration " ++ goQuote orig)
    else
      let (v, s1) := leadingInt 0 (c :: cs)
      let pre : Bool := s1.length != (c :: cs).length
      let fps : Nat × Nat × List Char × Bool :=
        match s1 with
        | '.' :: ds =>
          let (f, scale, rest) := leadingFraction 0 1 ds
          (f, scale, rest, rest.length != ds.length)
        | _ => (0, 1, s1, false)
      if !pre && !fps.2.2.2 then
        Except.error ("time: invalid duration " ++ goQuote orig)
      else
        let (u, s3) := spanUnit fps.2.2.1
        if u = [] then
          Except.error ("time: missing unit in duration " ++ goQuote orig)
        else
          match unitValue (String.mk u) with
          | none =>
            Except.error ("time: unknown unit " ++ goQuote (String.mk u) ++
              " in duration " ++ goQuote orig)
          | some unit =>
            parseSegments orig fuel (d + v * unit + fps.1 * unit / fps.2.1) s3

/-- Model of Go `time.ParseDuration`, the function behind
`RepoConfig.ParseInterval` in `plugins/gitfetcher/config/config.go`. -/
def parseDuration (s : String) : Except String Int :=
  let cs := s.toList
  let signed : Bool × List Char :=
    match cs with
    | '-' :: rest => (true, rest)
    | '+' :: rest => (false, rest)
    | _ => (false, cs)
  if signed.2 = ['0'] then Except.ok 0
  else if signed.2 = [] then
    Except.error ("time: invalid duration " ++ goQuote s)
  else
    match parseSegments s (signed.2.length + 1) 0 signed.2 with
    | Except.error e => Except.error e
    | Except.ok d => Except.ok (if signed.1 then -(d : Int) else (d : Int))

/-! ## gitfetcher configuration (`plugins/gitfetcher/config/config.go`) -/

/-- `config.RepoConfig`. -/
structure RepoConfig where
  name : String
  url : String
  localPath : String
  interval : String
deriving DecidableEq, Repr, Inhabited

/-- `config.Config`. -/
structure Config where
  repos : List RepoConfig
  sshKeyPath : String
  httpPort : Int
  logPath : String
deriving DecidableEq, Repr, Inhabited

/-- `RepoConfig.ParseInterval`. -/
def RepoConfig.parseInterval (r : RepoConfig) : Except String Int :=
  parseDuration r.interval

/-- The errors `Config.Validate` can return, one constructor per
`fmt.Errorf` call site, carrying exactly the data the source formats into
the message. -/
inductive ValidationError
  | noRepos
  | nameRequired (i : Nat)
  | urlRequired (i : Nat)
  | localPathRequired (i : Nat)
  | invalidInterval (i : Nat) (interval : String) (cause : String)
  | invalidPort (port : Int)
deriving DecidableEq, Repr

/-- The message each branch of `Config.Validate` formats (`%w` renders the
wrapped parse error's message). -/
def errMessage : ValidationError → String
  | ValidationError.noRepos => "no repositories configured"
  | ValidationError.nameRequired i => "repo[" ++ toString i ++ "]: name is required"
  | ValidationError.urlRequired i => "repo[" ++ toString i ++ "]: url is required"
  | ValidationError.localPathRequired i =>
    "repo[" ++ toString i ++ "]: local_path is required"
  | ValidationError.invalidInterval i interval cause =>
    "repo[" ++ toString i ++ "]: invalid interval \x27" ++ interval ++ "\x27: " ++ cause
  | ValidationError.invalidPort p => "invalid http_port: " ++ toString p

/-- The per-repository loop of `Config.Validate`, indexed from `i`. -/
def validateRepos : Nat → List RepoConfig → Option ValidationError
  | _, [] => none
  | i, r :: rs =>
    if r.name = "" then some (ValidationError.nameRequired i)
    else if r.url = "" then some (ValidationError.urlRequired i)
    else if r.localPath = "" then some (ValidationError.localPathRequired i)
    else
      match r.parseInterval with
      | Except.error e => some (ValidationError.invalidInterval i r.interval e)
      | Except.ok _ => validateRepos (i + 1) rs

/-- `Config.Validate`: `none` means the configuration is accepted. -/
def validate (c : Config) : Option ValidationError :=
  if c.repos = [] then some ValidationError.noRepos
  else
    match validateRepos 0 c.repos with
    | some e => some e
    | none =>
      if c.httpPort ≤ 0 ∨ 65535 < c.httpPort then
        some (ValidationError.invalidPort c.httpPort)
      else none

/-- The default-filling block of `config.LoadConfig`: an absent
`http_port` (Go zero value 0) becomes 8080 and an absent `log_path`
(Go zero value "") becomes "./logs". -/
def applyDefaults (c : Config) : Config :=
  { c with
    httpPort := if c.httpPort = 0 then 8080 else c.httpPort
    logPath := if c.logPath = "" then "./logs" else c.logPath }

/-- `config.LoadConfig` on the parsed document `raw` (YAML byte-level
parsing is an out-of-scope collaborator; `raw` is the unmarshalled
structure, in which fields absent from the file carry Go zero values). -/
def loadConfig (raw : Config) : Except ValidationError Config :=
  match validate (applyDefaults raw) with
  | some e => Except.error e
  | none => Except.ok (applyDefaults raw)

/-- `config.SaveConfig`: validates and marshals.  The returned value is
the document written to disk; `yaml.Marshal` followed by
`yaml.Unmarshal` is the identity on this all-scalar structure, so the
document is represented by the configuration itself. -/
def saveConfig (cfg : Config) : Except ValidationError Config :=
  match validate cfg with
  | some e => Except.error e
  | none => Except.ok cfg

/-! ## gitfetcher scheduler (`plugins/gitfetcher/scheduler/scheduler.go`)

The Go scheduler keeps `repos map[string]*RepoStatus`: a map whose
values are shared mutable pointers.  The model makes the sharing
explicit: `heap` maps cell indices to `RepoStatus` values, `repos`
associates each repository name with the index of its live cell, and
`next` is the allocation counter (every `&RepoStatus{...}` takes a fresh
index). -/

/-- `scheduler.RepoStatus`.  Times are integer nanoseconds. -/
structure RepoStatus where
  name : String
  url : String
  localPath : String
  interval : String
  lastFetch : Int
  lastResult : String
  lastSuccess : Bool
  nextFetch : Int
  isRunning : Bool
  fetchCount : Nat
  successCount : Nat
  failCount : Nat
deriving DecidableEq, Repr, Inhabited

/-- `fetcher.FetchResult`, the value returned by the Sync Executor
`fetcher.Fetch` (an external collaborator; results are arbitrary). -/
structure FetchResult where
  repoName : String
  success : Bool
  message : String
  timestamp : Int
deriving DecidableEq, Repr, Inhabited

/-- Point update of the heap. -/
def writeHeap (h : Nat → RepoStatus) (i : Nat) (v : RepoStatus) : Nat → RepoStatus :=
  fun j => if j = i then v else h j

/-- Go map insertion: overwrite the binding if the key is present,
append it otherwise. -/
def mapInsert : List (String × Nat) → String → Nat → List (String × Nat)
  | [], k, v => [(k, v)]
  | (k2, v2) :: rest, k, v =>
    if k2 = k then (k, v) :: rest else (k2, v2) :: mapInsert rest k v

/-- The scheduler's shared state (`Scheduler.repos` plus the heap the
`*RepoStatus` pointers live in). -/
structure Scheduler where
  repos : List (String × Nat)
  heap : Nat → RepoStatus
  next : Nat

/-- `NewScheduler`: empty map, nothing allocated. -/
def Scheduler.init : Scheduler :=
  { repos := [], heap := fun _ => default, next := 0 }

/-- One iteration of `LoadConfig`'s start loop: allocate a fresh
`RepoStatus` for `repo` (zero counters, `NextFetch = time.Now()`) and
bind the repository name to it. -/
def allocRepo (now : Int) (s : Scheduler) (r : RepoConfig) : Scheduler :=
  let st : RepoStatus :=
    { name := r.name, url := r.url, localPath := r.localPath,
      interval := r.interval, lastFetch := 0, lastResult := "",
      lastSuccess := false, nextFetch := now, isRunning := false,
      fetchCount := 0, successCount := 0, failCount := 0 }
  { repos := mapInsert s.repos r.name s.next,
    heap := writeHeap s.heap s.next st,
    next := s.next + 1 }

/-- `Scheduler.LoadConfig` under the scheduler mutex: close every stop
channel (worker shutdown is modelled on the thread side), clear the map,
and start one fresh status per configured repository. -/
def Scheduler.loadConfig (s : Scheduler) (cfg : Config) (now : Int) : Scheduler :=
  cfg.repos.foldl (allocRepo now) { s with repos := [] }

/-- The first locked section of `executeFetch`: look the name up and set
`IsRunning`; returns the captured `*RepoStatus` pointer, or `none` when
the repository is gone (early return). -/
def execFetchStart (s : Scheduler) (name : String) : Option Nat × Scheduler :=
  match List.lookup name s.repos with
  | none => (none, s)
  | some id =>
    (some id,
     { s with heap := writeHeap s.heap id { s.heap id with isRunning := true } })

/-- The statistics block of `executeFetch`'s second locked section,
applied to the status struct behind the captured pointer. -/
def applyResult (st : RepoStatus) (res : FetchResult) : RepoStatus :=
  { st with
    isRunning := false
    lastFetch := res.timestamp
    lastResult := res.message
    lastSuccess := res.success
    fetchCount := st.fetchCount + 1
    successCount := if res.success then st.successCount + 1 else st.successCount
    failCount := if res.success then st.failCount else st.failCount + 1 }

/-- The `NextFetch` recalculation in `executeFetch`: `getRepoConfig`
re-reads the current map and re-parses the interval of the status it
finds there; on any failure the field is left alone. -/
def updateNextFetch (s : Scheduler) (name : String) (st : RepoStatus) (now : Int) :
    RepoStatus :=
  match List.lookup name s.repos with
  | none => st
  | some id2 =>
    match parseDuration (s.heap id2).interval with
    | Except.ok d => { st with nextFetch := now + d }
    | Except.error _ => st

/-- The whole second locked section of `executeFetch`, writing through
the pointer `id` captured by the first section. -/
def execFetchFinish (s : Scheduler) (name : String) (id : Nat) (res : FetchResult)
    (now : Int) : Scheduler :=
  { s with heap := writeHeap s.heap id (updateNextFetch s name (applyResult (s.heap id) res) now) }

/-- `executeFetch` run in one piece (both locked sections and the fetch
in between, whose result is `res`). -/
def Scheduler.executeFetch (s : Scheduler) (name : String) (res : FetchResult)
    (now : Int) : Scheduler :=
  match execFetchStart s name with
  | (none, s1) => s1
  | (some id, s1) => execFetchFinish s1 name id res now

/-- The copy loop of `GetStatus`: for each live entry allocate a fresh
cell holding a copy of the pointed-to status (`statusCopy := *v`) and
bind the name to the copy in the result map. -/
def getStatusAux : List (String × Nat) → List (String × Nat) → Scheduler →
    List (String × Nat) × Scheduler
  | [], acc, s => (acc, s)
  | (k, id) :: rest, acc, s =>
    getStatusAux rest (mapInsert acc k s.next)
      { s with heap := writeHeap s.heap s.next (s.heap id), next := s.next + 1 }

/-- `Scheduler.GetStatus`: a point-in-time copy of every live status.
The first component is the returned map (name to copied cell), the
second the scheduler afterwards (its heap now also holds the copies). -/
def Scheduler.getStatus (s : Scheduler) : List (String × Nat) × Scheduler :=
  getStatusAux s.repos [] s

/-- `Scheduler.ManualFetch` up to the `go s.executeFetch(...)` statement:
returns the Go `error` result together with the goroutine it spawns
(`some (name, localPath)`), if any.  The scheduler state is only read. -/
def Scheduler.manualFetch (s : Scheduler) (name : String) :
    Option String × Option (String × String) :=
  match List.lookup name s.repos with
  | none => (none, none)
  | some id => (none, some (name, (s.heap id).localPath))

/-! ### Interleaving semantics

One goroutine executing `executeFetch` performs two atomic (mutex
protected) actions; between them it runs the Sync Executor
`fetcher.Fetch`.  A thread is either still waiting to enter the first
locked section or inside the fetch with a captured pointer. -/

/-- An in-flight invocation of `executeFetch`. -/
inductive TState
  | pending (name localPath : String)
  | fetching (name : String) (id : Nat) (localPath : String)
deriving DecidableEq, Repr

/-- Global state: the shared scheduler plus the in-flight
`executeFetch` goroutines. -/
structure GState where
  sched : Scheduler
  threads : List TState

/-- Reload step (`LoadConfig`). -/
def doLoad (g : GState) (cfg : Config) (now : Int) : GState :=
  { sched := g.sched.loadConfig cfg now, threads := g.threads }

/-- A new invocation of `executeFetch` is spawned (a `ManualFetch`
goroutine, or a worker loop's initial run or timer tick, with the
name and local path the worker captured at start). -/
def doSpawn (g : GState) (name localPath : String) : GState :=
  { sched := g.sched, threads := TState.pending name localPath :: g.threads }

/-- Thread `i` runs `executeFetch`'s first locked section and finds its
repository gone: it returns at once. -/
def doStartMiss (g : GState) (i : Nat) : GState :=
  { sched := g.sched, threads := g.threads.eraseIdx i }

/-- Thread `i` runs the first locked section, captures the pointer `id`
and sets `IsRunning`; it is now inside `fetcher.Fetch`. -/
def doStartHit (g : GState) (i : Nat) (name : String) (id : Nat) (localPath : String) :
    GState :=
  { sched :=
      { g.sched with
        heap := writeHeap g.sched.heap id { g.sched.heap id with isRunning := true } }
    threads := g.threads.set i (TState.fetching name id localPath) }

/-- Thread `i` returns from `fetcher.Fetch` with result `res` and runs
the second locked section through its captured pointer. -/
def doFinish (g : GState) (i : Nat) (name : String) (id : Nat) (res : FetchResult)
    (now : Int) : GState :=
  { sched := execFetchFinish g.sched name id res now
    threads := g.threads.eraseIdx i }

/-- A status reader runs `GetStatus` (it copies, the live map is
unchanged). -/
def doStatus (g : GState) : GState :=
  { sched := (g.sched.getStatus).2, threads := g.threads }

/-- Atomic steps of the scheduler system.  Mutex-protected sections are
single steps; everything else interleaves freely. -/
inductive Step : GState → GState → Prop
  | load (g : GState) (cfg : Config) (now : Int) : Step g (doLoad g cfg now)
  | spawnManual (g : GState) (name : String) (id : Nat)
      (h : List.lookup name g.sched.repos = some id) :
      Step g (doSpawn g name ((g.sched.heap id).localPath))
  | spawnWorker (g : GState) (name localPath : String) :
      Step g (doSpawn g name localPath)
  | startMiss (g : GState) (i : Nat) (name localPath : String)
      (h : g.threads.get? i = some (TState.pending name localPath))
      (h2 : List.lookup name g.sched.repos = none) :
      Step g (doStartMiss g i)
  | startHit (g : GState) (i : Nat) (name localPath : String) (id : Nat)
      (h : g.threads.get? i = some (TState.pending name localPath))
      (h2 : List.lookup name g.sched.repos = some id) :
      Step g (doStartHit g i name id localPath)
  | finish (g : GState) (i : Nat) (name : String) (id : Nat) (localPath : String)
      (res : FetchResult) (now : Int)
      (h : g.threads.get? i = some (TState.fetching name id localPath)) :
      Step g (doFinish g i name id res now)
  | status (g : GState) : Step g (doStatus g)

/-- Initial state: `NewScheduler`, no goroutines. -/
def gInit : GState := { sched := Scheduler.init, threads := [] }

/-- Reachability from the freshly constructed scheduler. -/
def Reachable (g : GState) : Prop := Relation.ReflTransGen Step gInit g

/-- Number of goroutines currently inside `fetcher.Fetch` for `name`. -/
def fetchingCount (g : GState) (name : String) : Nat :=
  (g.threads.filter fun t =>
    match t with
    | TState.fetching n _ _ => n == name
    | TState.pending _ _ => false).length

/-! ## github-sync: Redmine issues and custom fields
(`internal/config/config.go`, redmine client section) -/

/-- A named Redmine entity (`Project`, `Tracker`, `Status`, `Priority`,
`User` all have this shape). -/
structure Named where
  id : Int
  name : String
deriving DecidableEq, Repr, Inhabited

/-- The duck-typed JSON value of a custom field: JSON strings and
numbers arrive as Go `string` / `float64`, JSON `null` as `nil`; any
other shape falls through to the `fmt.Sprintf("%v", v)` branch, modelled
by the rendering it would produce.  The numeric payload is an exact
rational (every `float64` is one; `float64` rounding of non-representable
decimals and the rendering of negative zero are not modelled). -/
inductive CFValue
  | nil
  | str (s : String)
  | num (q : ℚ)
  | other (goRepr : String)
deriving DecidableEq, Repr

/-- `redmine.CustomField`. -/
structure CustomField where
  id : Int
  name : String
  value : CFValue
  multiple : Bool
deriving DecidableEq, Repr

/-- `redmine.Issue`. -/
structure Issue where
  id : Int
  project : Named
  tracker : Named
  status : Named
  priority : Named
  author : Named
  subject : String
  description : String
  customFields : List CustomField
  createdOn : String
  updatedOn : String
deriving DecidableEq, Repr

/-- Round to the nearest integer, ties to even: the rounding
`fmt.Sprintf("%.0f", v)` performs.  Computed on the numerator and
denominator: `f = ⌊q⌋` is `num.fdiv den`, and the fractional remainder
`q - f = rem/den` is compared with `1/2` by comparing `2*rem` with
`den`. -/
def roundHalfEven (q : ℚ) : Int :=
  let d : Int := (q.den : Int)
  let f := q.num.fdiv d
  let rem := q.num - f * d
  if 2 * rem < d then f
  else if d < 2 * rem then f + 1
  else if f % 2 = 0 then f else f + 1

/-- `fmt.Sprintf("%.0f", v)`. -/
def goFormatF0 (q : ℚ) : String := toString (roundHalfEven q)

/-- The stringification the `switch` in `GetCustomFieldValue` applies to
a present field's value. -/
def cfRender : CFValue → String
  | CFValue.nil => ""
  | CFValue.str v => v
  | CFValue.num v => goFormatF0 v
  | CFValue.other r => r

/-- The loop body of `Issue.GetCustomFieldValue`: first field with a
matching ID wins; `nil` values and absent fields give `""`. -/
def getCFV : List CustomField → Int → String
  | [], _ => ""
  | cf :: rest, fieldID =>
    if cf.id = fieldID then
      match cf.value with
      | CFValue.nil => ""
      | CFValue.str v => v
      | CFValue.num v => goFormatF0 v
      | CFValue.other r => r
    else getCFV rest fieldID

/-- `Issue.GetCustomFieldValue`. -/
def Issue.getCustomFieldValue (i : Issue) (fieldID : Int) : String :=
  getCFV i.customFields fieldID

/-! ## github-sync configuration (`internal/config/config.go`) -/

/-- `config.CustomFieldsMapping`. -/
structure CustomFieldsMapping where
  targetRepoID : Int
  githubIssueURLID : Int
deriving DecidableEq, Repr

/-- `config.ProjectConfig`. -/
structure ProjectConfig where
  identifier : String
  customFields : CustomFieldsMapping
deriving DecidableEq, Repr

/-- `config.ErrorConfig`. -/
structure ErrorConfig where
  log : Bool
  addRedmineNote : Bool
  logFile : String
deriving DecidableEq, Repr

/-- `config.SyncConfig`. -/
structure SyncConfig where
  interval : String
  titleFormat : String
  onError : ErrorConfig
deriving DecidableEq, Repr

/-! ## github-sync storage (`internal/storage/postgres.go`)

The `sync_records` table (UNIQUE on `redmine_issue_id`) is a list of
rows; the database itself is assumed available (I/O failures of the
store are out of scope).  `sync_errors` is an append-only list. -/

/-- One row of `sync_records`. -/
structure SyncRecord where
  redmineIssueID : Int
  redmineProject : String
  githubRepo : String
  githubIssueNumber : Int
  githubIssueURL : String
  syncedAt : Int
deriving DecidableEq, Repr

/-- `IsSynced`: `EXISTS(SELECT 1 ... WHERE redmine_issue_id = $1)`. -/
def isSynced (t : List SyncRecord) (issueID : Int) : Bool :=
  t.any fun r => r.redmineIssueID == issueID

/-- `RecordSync`: `INSERT ... ON CONFLICT (redmine_issue_id) DO UPDATE`.
The conflict branch updates repo, number, URL and timestamp but not
`redmine_project`, exactly as the SQL does. -/
def upsertRecord : List SyncRecord → SyncRecord → List SyncRecord
  | [], r => [r]
  | row :: rest, r =>
    if row.redmineIssueID = r.redmineIssueID then
      { row with
        githubRepo := r.githubRepo
        githubIssueNumber := r.githubIssueNumber
        githubIssueURL := r.githubIssueURL
        syncedAt := r.syncedAt } :: rest
    else row :: upsertRecord rest r

/-- Number of `sync_records` rows for one originating issue ID. -/
def recordsFor (t : List SyncRecord) (issueID : Int) : Nat :=
  (t.filter fun r => r.redmineIssueID == issueID).length

/-- Durable state the syncer touches: the idempotency table and the
append-only error table. -/
structure SyncState where
  table : List SyncRecord
  errs : List (Int × String)
deriving DecidableEq, Repr

/-! ## github-sync executor (`internal/sync/syncer.go`) -/

/-- `github.Issue` (the fields the syncer uses). -/
structure GHIssue where
  number : Int
  htmlURL : String
deriving DecidableEq, Repr

/-- `github.CreateIssueRequest`. -/
structure CreateIssueRequest where
  title : String
  body : String
  labels : List String
deriving DecidableEq, Repr

/-- `strings.Contains(s, "/")` for the single-character separator,
computed on the character list. -/
def strContains (s : String) (c : Char) : Bool := s.data.contains c

/-- Externally visible calls the syncer makes, in order. -/
inductive SyncEvent
  | createIssue (repo : String) (req : CreateIssueRequest)
  | updateField (issueID fieldID : Int) (value : String)
  | addNote (issueID : Int) (note : String)
deriving DecidableEq, Repr

/-- Outcomes of the external collaborators during one `syncIssue` call:
what `github.CreateIssue` returns (`none` = error with message
`createErrMsg`) and whether `redmine.UpdateCustomField` succeeds (its
failure is only logged, so it changes no state either way). -/
structure SyncEnv where
  createResult : Option GHIssue
  createErrMsg : String
  updateFieldOk : Bool
deriving DecidableEq, Repr

/-- `fmt.Sprintf(format, issue.ID, issue.Subject)` for the title: the
verbs of the format string consume the two arguments in order (`%d`/`%v`
render the integer, `%s`/`%v` the string, `%%` a literal percent; other
verbs are not used by any configuration and render a marker). -/
def sprintfArgs : List Char → List (Int ⊕ String) → String
  | [], _ => ""
  | '%' :: '%' :: cs, args => "%" ++ sprintfArgs cs args
  | '%' :: c :: cs, args =>
    (match args, c with
     | Sum.inl n :: _, 'd' => toString n
     | Sum.inr s :: _, 's' => s
     | Sum.inl n :: _, 'v' => toString n
     | Sum.inr s :: _, 'v' => s
     | _, _ => "%!" ++ String.mk [c]) ++ sprintfArgs cs args.tail
  | c :: cs, args => String.mk [c] ++ sprintfArgs cs args

/-- Build the GitHub issue title from the configured format. -/
def buildTitle (format : String) (id : Int) (subject : String) : String :=
  sprintfArgs format.toList [Sum.inl id, Sum.inr subject]

/-- `buildGitHubIssueBody`. -/
def buildGitHubIssueBody (redmineURL : String) (issue : Issue) : String :=
  "**From Redmine Issue #" ++ toString issue.id ++ "**\n\n" ++
  "**Project**: " ++ issue.project.name ++ "\n" ++
  "**Tracker**: " ++ issue.tracker.name ++ "\n" ++
  "**Priority**: " ++ issue.priority.name ++ "\n" ++
  "**Author**: " ++ issue.author.name ++ "\n" ++
  "**Created**: " ++ issue.createdOn ++ "\n\n" ++
  "---\n\n" ++
  (if issue.description ≠ "" then issue.description else "*No description*") ++
  "\n\n---\n*Synced from Redmine: " ++ redmineURL ++ "/issues/" ++
  toString issue.id ++ "*"

/-- `mapLabels`. -/
def mapLabels (issue : Issue) : List String :=
  let l1 : List String :=
    if issue.tracker.name = "Bug" then ["bug"]
    else if issue.tracker.name = "Feature" then ["enhancement"]
    else if issue.tracker.name = "Support" then ["question"]
    else []
  let l2 : List String :=
    if issue.priority.name = "Urgent" ∨ issue.priority.name = "Immediate" then
      ["priority:high"]
    else if issue.priority.name = "High" then ["priority:medium"]
    else []
  l1 ++ l2 ++ ["from-redmine"]

/-- `handleError`: append to `sync_errors` and, when configured, add a
Redmine note (log output is not modelled). -/
def handleError (cfg : SyncConfig) (st : SyncState) (issueID : Int) (errorMsg : String) :
    SyncState × List SyncEvent :=
  let st2 := { st with errs := st.errs ++ [(issueID, errorMsg)] }
  let evs :=
    if cfg.onError.addRedmineNote then
      [SyncEvent.addNote issueID ("⚠️ GitHub 同步失敗\n\n錯誤訊息：" ++ errorMsg)]
    else []
  (st2, evs)

/-- `syncIssue`: the record-style Sync Executor.  Returns the Go `error`
(`none` = success), the durable state afterwards, and the external calls
performed, in order. -/
def syncIssue (cfg : SyncConfig) (redmineURL : String) (issue : Issue)
    (project : ProjectConfig) (env : SyncEnv) (now : Int) (st : SyncState) :
    Option String × SyncState × List SyncEvent :=
  if isSynced st.table issue.id then (none, st, [])
  else
    let targetRepo := issue.getCustomFieldValue project.customFields.targetRepoID
    if targetRepo = "" then (none, st, [])
    else if !(strContains targetRepo '/') then
      let errMsg := "Invalid repo format \x27" ++ targetRepo ++
        "\x27, expected \x27owner/repo\x27"
      let r := handleError cfg st issue.id errMsg
      (some ("invalid repo format: " ++ targetRepo), r.1, r.2)
    else
      let req : CreateIssueRequest :=
        { title := buildTitle cfg.titleFormat issue.id issue.subject
          body := buildGitHubIssueBody redmineURL issue
          labels := mapLabels issue }
      match env.createResult with
      | none =>
        let r := handleError cfg st issue.id
          ("Failed to create GitHub issue: " ++ env.createErrMsg)
        (some ("failed to create GitHub issue: " ++ env.createErrMsg), r.1,
         SyncEvent.createIssue targetRepo req :: r.2)
      | some gh =>
        let st2 :=
          { st with
            table := upsertRecord st.table
              { redmineIssueID := issue.id
                redmineProject := project.identifier
                githubRepo := targetRepo
                githubIssueNumber := gh.number
                githubIssueURL := gh.htmlURL
                syncedAt := now } }
        (none, st2,
         [SyncEvent.createIssue targetRepo req,
          SyncEvent.updateField issue.id project.customFields.githubIssueURLID
            gh.htmlURL])

/-- Which of a sync call's external events are GitHub creation calls. -/
def isCreateEvent : SyncEvent → Bool
  | SyncEvent.createIssue _ _ => true
  | _ => false

/-! ## github-sync webhook (`internal/webhook/server.go`)

The HMAC-SHA256 digest is an external primitive: the development is
parametric in the function `mac : secret → body → hex digest`, and
`hmac.Equal` is extensionally byte-slice equality (its constant-time
execution is a property of the primitive, not of values).  JSON
unmarshalling is likewise a parameter `parseJSON`. -/

/-- `webhook.IssueChangedPayload`. -/
structure IssueChangedPayload where
  issueID : Int
  projectIdentifier : String
  targetRepo : String
  action : String
  timestamp : String
deriving DecidableEq, Repr

/-- An inbound HTTP request as the handler sees it: method, raw body,
and the `X-Webhook-Signature` header (`none` when the header is
missing). -/
structure WebhookRequest where
  method : String
  body : String
  signatureHeader : Option String
deriving DecidableEq, Repr

/-- `r.Header.Get`: the empty string when the header is absent. -/
def headerGet (h : Option String) : String := h.getD ""

/-- `strings.TrimPrefix(signature, "sha256=")`, computed on the
character list (the tag is 7 ASCII characters). -/
def trimSigScheme (sig : String) : String :=
  if sig.data.take 7 = "sha256=".data then String.mk (sig.data.drop 7) else sig

/-- `Server.verifySignature`. -/
def verifySignature (mac : String → String → String)
    (secret body signature : String) : Bool :=
  if signature = "" then false
  else trimSigScheme signature == mac secret body

/-- `Server.handleIssueChanged`: returns the HTTP status written and the
argument of the asynchronous `SyncSpecificIssue` call, if one is
spawned. -/
def handleIssueChanged (mac : String → String → String)
    (parseJSON : String → Option IssueChangedPayload)
    (secret : String) (req : WebhookRequest) : Nat × Option (Int × String) :=
  if req.method != "POST" then (405, none)
  else if secret != "" && !verifySignature mac secret req.body
      (headerGet req.signatureHeader) then (401, none)
  else
    match parseJSON req.body with
    | none => (400, none)
    | some p => (200, some (p.issueID, p.projectIdentifier))

/-- The keys of a Go-map model. -/
def keysOf (m : List (String × Nat)) : List String := m.map Prod.fst

/-! ## Invariants of the scheduler state -/

/-- Well-formedness of the explicit heap: every live `*RepoStatus`
pointer was produced by the allocator. -/
def WF (s : Scheduler) : Prop := ∀ kv ∈ s.repos, kv.2 < s.next

/-- The statistics invariant of every live runtime state. -/
def CounterInv (s : Scheduler) : Prop :=
  ∀ kv ∈ s.repos,
    (s.heap kv.2).successCount + (s.heap kv.2).failCount = (s.heap kv.2).fetchCount

/-- Combined inductive invariant. -/
def Inv (s : Scheduler) : Prop := WF s ∧ CounterInv s

instance (s : Scheduler) : Decidable (WF s) := List.decidableBAll _ s.repos

instance (s : Scheduler) : Decidable (CounterInv s) := List.decidableBAll _ s.repos

/-! ## Concrete sample data -/

/-- A well-formed repository declaration. -/
def repoA : RepoConfig :=
  { name := "repo-a", url := "git@example.com:a.git",
    localPath := "/repos/a.git", interval := "5m" }

/-- A fully valid configuration declaring `repo-A`. -/
def cfgA : Config :=
  { repos := [repoA], sshKeyPath := "", httpPort := 8080, logPath := "./logs" }

/-- A configuration document in which `http_port` and `log_path` are
absent (Go zero values after unmarshalling). -/
def rawA : Config :=
  { repos := [repoA], sshKeyPath := "", httpPort := 0, logPath := "" }

/-- `repo-a` declared with an unparseable interval. -/
def repoBadA : RepoConfig :=
  { name := "repo-a", url := "git@example.com:a.git",
    localPath := "/repos/a.git", interval := "half-an-hour" }

/-- Same declaration under a different identity. -/
def repoBadB : RepoConfig :=
  { name := "repo-b", url := "git@example.com:a.git",
    localPath := "/repos/a.git", interval := "half-an-hour" }

/-- Configuration whose only flaw is the unparseable interval of
`repo-a`. -/
def cfgBadA : Config :=
  { repos := [repoBadA], sshKeyPath := "", httpPort := 8080, logPath := "./logs" }

/-- The same configuration with the identity renamed to `repo-b`. -/
def cfgBadB : Config :=
  { repos := [repoBadB], sshKeyPath := "", httpPort := 8080, logPath := "./logs" }

/-- A successful fetch result. -/
def resOkA : FetchResult :=
  { repoName := "repo-a", success := true, message := "ok", timestamp := 5 }

/-! A concrete execution: load `cfgA`, trigger `ManualFetch "repo-a"`
twice, let both goroutines enter `executeFetch`, then let both finish. -/

/-- After `LoadConfig(cfgA)`. -/
def g1 : GState := doLoad gInit cfgA 0

/-- After the first `ManualFetch "repo-a"` spawned its goroutine. -/
def g2 : GState := doSpawn g1 "repo-a" "/repos/a.git"

/-- After the second `ManualFetch "repo-a"` spawned its goroutine. -/
def g3 : GState := doSpawn g2 "repo-a" "/repos/a.git"

/-- The first goroutine has entered `fetcher.Fetch`. -/
def g4 : GState := doStartHit g3 0 "repo-a" 0 "/repos/a.git"

/-- Both goroutines are now inside `fetcher.Fetch` for `repo-a`. -/
def g5 : GState := doStartHit g4 1 "repo-a" 0 "/repos/a.git"

/-- The first goroutine finished. -/
def g6 : GState := doFinish g5 0 "repo-a" 0 resOkA 10

/-- Both goroutines finished. -/
def g7 : GState := doFinish g6 0 "repo-a" 0 resOkA 11

/-! Sample github-sync data. -/

/-- Custom-field mapping: field 1 is the target repo, field 2 the
write-back URL field. -/
def cfMapping : CustomFieldsMapping := { targetRepoID := 1, githubIssueURLID := 2 }

/-- A configured project. -/
def projectX : ProjectConfig := { identifier := "proj-x", customFields := cfMapping }

/-- Sync configuration with note-adding disabled. -/
def syncCfg : SyncConfig :=
  { interval := "5m", titleFormat := "[Redmine #%d] %s",
    onError := { log := true, addRedmineNote := false, logFile := "" } }

/-- An issue whose target-repo custom field holds `octo/repo` and whose
field 3 carries the number 42.0. -/
def issue42 : Issue :=
  { id := 42, project := { id := 7, name := "Proj" },
    tracker := { id := 1, name := "Bug" }, status := { id := 1, name := "New" },
    priority := { id := 2, name := "High" }, author := { id := 3, name := "Alice" },
    subject := "Crash on save", description := "steps to reproduce",
    customFields :=
      [{ id := 1, name := "Target Repo", value := CFValue.str "octo/repo",
         multiple := false },
       { id := 3, name := "Estimate", value := CFValue.num 42, multiple := false }],
    createdOn := "2024-01-01", updatedOn := "2024-01-02" }

/-- An issue whose target-repo custom field is JSON `null`. -/
def issueNoTarget : Issue :=
  { issue42 with
    id := 43,
    customFields :=
      [{ id := 1, name := "Target Repo", value := CFValue.nil, multiple := false }] }

/-- Environment in which the GitHub creation call succeeds. -/
def envOk : SyncEnv :=
  { createResult := some { number := 9, htmlURL := "https://github.com/octo/repo/issues/9" },
    createErrMsg := "", updateFieldOk := true }

/-- A different environment for the second call. -/
def envOther : SyncEnv :=
  { createResult := some { number := 10, htmlURL := "https://github.com/octo/repo/issues/10" },
    createErrMsg := "", updateFieldOk := false }

/-- Empty durable state. -/
def st0 : SyncState := { table := [], errs := [] }

/-! Sample webhook data. -/

/-- A stand-in digest function for witnesses (the statements are
parametric in it). -/
def macConst : String → String → String := fun _ _ => "aaaa"

/-- A stand-in JSON parser that accepts everything as issue 42. -/
def parse42 : String → Option IssueChangedPayload := fun _ =>
  some { issueID := 42, projectIdentifier := "proj-x", targetRepo := "octo/repo",
         action := "updated", timestamp := "t" }

/-- POST request without a signature header. -/
def reqNoSig : WebhookRequest :=
  { method := "POST", body := "{}", signatureHeader := none }

/-- POST request whose signature does not match `macConst`. -/
def reqBadSig : WebhookRequest :=
  { method := "POST", body := "{}", signatureHeader := some "sha256=bbbb" }

/-- POST request whose signature matches `macConst`. -/
def reqGoodSig : WebhookRequest :=
  { method := "POST", body := "{}", signatureHeader := some "sha256=aaaa" }

/-! # Theorems -/

/-- Filling defaults twice is the same as filling them once. -/
theorem applyDefaults_idem (c : Config) :
    applyDefaults (applyDefaults c) = applyDefaults c := by
  unfold applyDefaults
  by_cases h1 : c.httpPort = 0 <;> by_cases h2 : c.logPath = "" <;>
    simp [h1, h2]

/-- C6: for every file whose parsed document `LoadConfig` accepts,
saving the loaded configuration and loading it again reproduces the very
same configuration — same repositories (hence identities and interval
strings) — and the defaults are filled deterministically: an absent
`http_port` becomes 8080 and an absent `log_path` becomes `./logs`. -/
theorem loadConfig_roundTrip (raw cfg : Config) (h : loadConfig raw = Except.ok cfg) :
    saveConfig cfg = Except.ok cfg ∧
    loadConfig cfg = Except.ok cfg ∧
    cfg.repos = raw.repos ∧
    (raw.httpPort = 0 → cfg.httpPort = 8080) ∧
    (raw.logPath = "" → cfg.logPath = "./logs") := by
  unfold loadConfig at h
  cases hv : validate (applyDefaults raw) with
  | some e => rw [hv] at h; cases h
  | none =>
    rw [hv] at h
    injection h with h
    subst h
    refine ⟨?_, ?_, rfl, ?_, ?_⟩
    · unfold saveConfig; rw [hv]
    · unfold loadConfig; rw [applyDefaults_idem, hv]
    · intro h0; simp [applyDefaults, h0]
    · intro h0; simp [applyDefaults, h0]

/-- Witness for C6 at a concrete document lacking `http_port` and
`log_path`. -/
theorem loadConfig_roundTrip_witness :
    loadConfig rawA = Except.ok cfgA ∧
    (saveConfig cfgA = Except.ok cfgA ∧
     loadConfig cfgA = Except.ok cfgA ∧
     cfgA.repos = rawA.repos ∧
     (rawA.httpPort = 0 → cfgA.httpPort = 8080) ∧
     (rawA.logPath = "" → cfgA.logPath = "./logs")) :=
  ⟨rfl, loadConfig_roundTrip rawA cfgA rfl⟩

/-- If the per-repository validation loop accepts, every interval
parses. -/
theorem validateRepos_none {rs : List RepoConfig} :
    ∀ {i : Nat}, validateRepos i rs = none →
      ∀ r ∈ rs, ∃ d, r.parseInterval = Except.ok d := by
  induction rs with
  | nil => intro i _ r hr; cases hr
  | cons r0 rs ih =>
    intro i h r hr
    unfold validateRepos at h
    rw [List.mem_cons] at hr
    split_ifs at h
    cases hp : r0.parseInterval with
    | error e => rw [hp] at h; exact absurd h (by simp)
    | ok d =>
      rw [hp] at h
      rcases hr with rfl | hr
      · exact ⟨d, hp⟩
      · exact ih h r hr

/-- C7 (amended): `Validate` rejects a configuration declaring zero
repositories, rejects whenever some declared interval fails duration
parsing, and — when the offending repository is first in the list and
passes the field-presence checks — reports the error by list index and
interval string (the identity/name is not part of the error). -/
theorem validate_rejects_bad_intervals (c : Config) :
    (c.repos = [] → validate c = some ValidationError.noRepos) ∧
    ((∃ r ∈ c.repos, ∃ e, r.parseInterval = Except.error e) →
      (validate c).isSome = true) ∧
    (∀ r rs e, c.repos = r :: rs → r.name ≠ "" → r.url ≠ "" → r.localPath ≠ "" →
      r.parseInterval = Except.error e →
      validate c = some (ValidationError.invalidInterval 0 r.interval e)) := by
  refine ⟨?_, ?_, ?_⟩
  · intro h0; unfold validate; rw [if_pos h0]
  · rintro ⟨r, hr, e, he⟩
    unfold validate
    split_ifs with h0 hport
    · rfl
    · cases hv : validateRepos 0 c.repos with
      | some e2 => rfl
      | none => rfl
    · cases hv : validateRepos 0 c.repos with
      | some e2 => rfl
      | none =>
        exfalso
        rcases validateRepos_none hv r hr with ⟨d, hd⟩
        rw [hd] at he
        cases he
  · intro r rs e hsplit hn hu hl hp
    unfold validate
    rw [hsplit]
    rw [if_neg (by simp)]
    unfold validateRepos
    rw [if_neg hn, if_neg hu, if_neg hl, hp]

/-- Witness for C7's amended statement at a concrete configuration with
a bad interval. -/
theorem validate_rejects_bad_intervals_witness :
    ((∃ r ∈ cfgBadA.repos, ∃ e, r.parseInterval = Except.error e) →
      (validate cfgBadA).isSome = true) ∧
    (validate cfgBadA).isSome = true :=
  ⟨(validate_rejects_bad_intervals cfgBadA).2.1,
   (validate_rejects_bad_intervals cfgBadA).2.1
     ⟨repoBadA, by decide, "time: invalid duration \"half-an-hour\"", by rfl⟩⟩

set_option maxRecDepth 4000 in
/-- C7 counterexample: two configurations that differ only in the
offending repository's identity produce the *same* validation error, and
that error's message does not contain either identity — the error names
the repository by index, not by identity. -/
theorem validate_error_omits_identity :
    validate cfgBadA = validate cfgBadB ∧
    cfgBadA.repos ≠ cfgBadB.repos ∧
    validate cfgBadA =
      some (ValidationError.invalidInterval 0 "half-an-hour"
        "time: invalid duration \"half-an-hour\"") ∧
    ¬ List.IsInfix "repo-a".toList
      (errMessage (ValidationError.invalidInterval 0 "half-an-hour"
        "time: invalid duration \"half-an-hour\"")).toList ∧
    ¬ List.IsInfix "repo-b".toList
      (errMessage (ValidationError.invalidInterval 0 "half-an-hour"
        "time: invalid duration \"half-an-hour\"")).toList := by
  refine ⟨by decide, by decide, by decide, by decide, by decide⟩

/-- C8: `ManualFetch` on an identity that is not in the live set returns
the Go `nil` error and spawns no `executeFetch` goroutine; the scheduler
state is only read (`ManualFetch` holds the read lock and performs no
write), so no execution and no state change occur. -/
theorem manualFetch_unknown (s : Scheduler) (name : String)
    (h : List.lookup name s.repos = none) :
    s.manualFetch name = (none, none) := by
  unfold Scheduler.manualFetch
  rw [h]

/-- Witness for C8: a loaded scheduler asked for an undeclared
identity. -/
theorem manualFetch_unknown_witness :
    List.lookup "repo-b" (Scheduler.init.loadConfig cfgA 0).repos = none ∧
    (Scheduler.init.loadConfig cfgA 0).manualFetch "repo-b" = (none, none) :=
  ⟨by decide, manualFetch_unknown (Scheduler.init.loadConfig cfgA 0) "repo-b" (by decide)⟩

/-! ### Map and snapshot lemmas -/

/-- Membership in the keys of a Go-map after an insert. -/
theorem mem_keys_mapInsert {x : String} {m : List (String × Nat)} {k : String} {v : Nat} :
    x ∈ keysOf (mapInsert m k v) ↔ x = k ∨ x ∈ keysOf m := by
  induction m with
  | nil => simp [mapInsert, keysOf]
  | cons hd tl ih =>
    obtain ⟨a, b⟩ := hd
    simp only [mapInsert]
    split_ifs with hak
    · subst hak
      simp only [keysOf, List.map_cons, List.mem_cons]
      tauto
    · simp only [keysOf, List.map_cons, List.mem_cons] at ih ⊢
      rw [ih]
      tauto

/-- Inserting preserves distinctness of the keys. -/
theorem nodup_keys_mapInsert {m : List (String × Nat)} {k : String} {v : Nat}
    (h : (keysOf m).Nodup) : (keysOf (mapInsert m k v)).Nodup := by
  induction m with
  | nil => simp [mapInsert, keysOf]
  | cons hd tl ih =>
    obtain ⟨a, b⟩ := hd
    simp only [keysOf, List.map_cons, List.nodup_cons] at h
    obtain ⟨ha, htl⟩ := h
    simp only [mapInsert]
    split_ifs with hak
    · subst hak
      simp only [keysOf, List.map_cons, List.nodup_cons]
      exact ⟨ha, htl⟩
    · simp only [keysOf, List.map_cons, List.nodup_cons]
      refine ⟨?_, ih htl⟩
      intro hmem
      rcases mem_keys_mapInsert.mp hmem with rfl | hmem2
      · exact hak rfl
      · exact ha hmem2

/-- Elements of a Go-map after an insert. -/
theorem mem_mapInsert {m : List (String × Nat)} {k : String} {v : Nat}
    {kv : String × Nat} (h : kv ∈ mapInsert m k v) : kv = (k, v) ∨ kv ∈ m := by
  induction m with
  | nil => simp only [mapInsert] at h; simp at h; left; exact h
  | cons hd tl ih =>
    obtain ⟨a, b⟩ := hd
    simp only [mapInsert] at h
    split_ifs at h with hak
    · subst hak
      rcases List.mem_cons.mp h with h | h
      · exact Or.inl h
      · exact Or.inr (List.mem_cons_of_mem _ h)
    · rcases List.mem_cons.mp h with h | h
      · exact Or.inr (h ▸ List.mem_cons_self _ _)
      · rcases ih h with h2 | h2
        · exact Or.inl h2
        · exact Or.inr (List.mem_cons_of_mem _ h2)

/-- A successful Go-map lookup is a member of the association list. -/
theorem lookup_mem_pair {m : List (String × Nat)} {k : String} {v : Nat}
    (h : List.lookup k m = some v) : (k, v) ∈ m := by
  induction m with
  | nil => cases h
  | cons hd tl ih =>
    obtain ⟨a, b⟩ := hd
    by_cases hak : k = a
    · subst hak
      simp only [List.lookup, beq_self_eq_true, Option.some.injEq] at h
      subst h
      exact List.mem_cons_self _ _
    · have hbeq : (k == a) = false := by
        simp [hak]
      simp only [List.lookup, hbeq] at h
      exact List.mem_cons_of_mem _ (ih h)

/-- Keys produced by the `LoadConfig` start loop. -/
theorem mem_keys_loadRepos (now : Int) (rs : List RepoConfig) :
    ∀ (s : Scheduler) (x : String),
      x ∈ keysOf ((rs.foldl (allocRepo now) s).repos) ↔
        x ∈ rs.map RepoConfig.name ∨ x ∈ keysOf s.repos := by
  induction rs with
  | nil => intro s x; simp
  | cons r rs ih =>
    intro s x
    simp only [List.foldl_cons, List.map_cons, List.mem_cons]
    rw [ih]
    rw [show (allocRepo now s r).repos = mapInsert s.repos r.name s.next from rfl,
      mem_keys_mapInsert]
    tauto

/-- Keys of the map returned by `GetStatus`'s copy loop. -/
theorem mem_keys_getStatusAux (l : List (String × Nat)) :
    ∀ (acc : List (String × Nat)) (s : Scheduler) (x : String),
      x ∈ keysOf (getStatusAux l acc s).1 ↔ x ∈ keysOf l ∨ x ∈ keysOf acc := by
  induction l with
  | nil => intro acc s x; simp [getStatusAux, keysOf]
  | cons hd tl ih =>
    obtain ⟨k, id⟩ := hd
    intro acc s x
    simp only [getStatusAux]
    rw [ih, mem_keys_mapInsert]
    simp only [keysOf, List.map_cons, List.mem_cons]
    tauto

/-- The copy loop never duplicates a key in its result. -/
theorem nodup_keys_getStatusAux (l : List (String × Nat)) :
    ∀ (acc : List (String × Nat)) (s : Scheduler),
      (keysOf acc).Nodup → (keysOf (getStatusAux l acc s).1).Nodup := by
  induction l with
  | nil => intro acc s h; exact h
  | cons hd tl ih =>
    obtain ⟨k, id⟩ := hd
    intro acc s h
    exact ih _ _ (nodup_keys_mapInsert h)

/-- C5: after the scheduler's `LoadConfig`, `GetStatus` returns exactly
one entry per identity declared in the loaded configuration and no entry
for any identity present only in an earlier configuration. -/
theorem loadConfig_getStatus_exact (s : Scheduler) (cfg : Config) (now : Int) :
    (keysOf ((s.loadConfig cfg now).getStatus).1).Nodup ∧
    ∀ x, x ∈ keysOf ((s.loadConfig cfg now).getStatus).1 ↔
      x ∈ cfg.repos.map RepoConfig.name := by
  constructor
  · exact nodup_keys_getStatusAux _ _ _ (by simp [keysOf])
  · intro x
    show x ∈ keysOf (getStatusAux (s.loadConfig cfg now).repos [] _).1 ↔ _
    rw [mem_keys_getStatusAux]
    rw [show (s.loadConfig cfg now).repos
        = (cfg.repos.foldl (allocRepo now) { s with repos := [] }).repos from rfl]
    rw [mem_keys_loadRepos]
    simp [keysOf]

/-! ### Frame lemmas for GetStatus snapshots -/

/-- The copy loop leaves the live map untouched. -/
theorem getStatusAux_snd_repos (l : List (String × Nat)) :
    ∀ (acc : List (String × Nat)) (s : Scheduler),
      ((getStatusAux l acc s).2).repos = s.repos := by
  induction l with
  | nil => intro acc s; rfl
  | cons hd tl ih =>
    obtain ⟨k, id⟩ := hd
    intro acc s
    exact ih _ _

/-- Every cell named in a `GetStatus` snapshot was freshly allocated
(when the accumulator starts empty). -/
theorem mem_getStatusAux_cell (l : List (String × Nat)) :
    ∀ (acc : List (String × Nat)) (s : Scheduler) (k : String) (c : Nat),
      (k, c) ∈ (getStatusAux l acc s).1 → (k, c) ∈ acc ∨ s.next ≤ c := by
  induction l with
  | nil => intro acc s k c h; exact Or.inl h
  | cons hd tl ih =>
    obtain ⟨k2, id⟩ := hd
    intro acc s k c h
    simp only [getStatusAux] at h
    rcases ih _ _ _ _ h with hacc | hge
    · rcases mem_mapInsert hacc with heq | hacc2
      · right
        cases heq
        exact le_rfl
      · exact Or.inl hacc2
    · right
      exact Nat.le_of_succ_le hge

/-- `executeFetch` writes only through the pointer it looks up; every
other heap cell is untouched. -/
theorem executeFetch_heap_frame (s : Scheduler) (name : String) (res : FetchResult)
    (now : Int) (c : Nat)
    (h : ∀ id, List.lookup name s.repos = some id → c ≠ id) :
    (s.executeFetch name res now).heap c = s.heap c := by
  unfold Scheduler.executeFetch execFetchStart
  cases hlk : List.lookup name s.repos with
  | none => rfl
  | some id =>
    have hc := h id hlk
    simp only [execFetchFinish, writeHeap]
    rw [if_neg hc, if_neg hc]

/-- C9: the map returned by `GetStatus` is a point-in-time copy — a
subsequent `executeFetch` (which mutates counters, flags and timestamps
of live runtime states) does not change the status cell behind any entry
of a previously returned snapshot. -/
theorem getStatus_snapshot_immutable (s : Scheduler) (hWF : WF s) (k : String) (c : Nat)
    (hmem : (k, c) ∈ (s.getStatus).1) (name : String) (res : FetchResult) (now : Int) :
    (((s.getStatus).2).executeFetch name res now).heap c = ((s.getStatus).2).heap c := by
  apply executeFetch_heap_frame
  intro id hlk
  rw [show ((s.getStatus).2).repos = s.repos from getStatusAux_snd_repos _ _ _] at hlk
  have hid : id < s.next := hWF _ (lookup_mem_pair hlk)
  rcases mem_getStatusAux_cell _ _ _ _ _ hmem with h0 | hge
  · cases h0
  · omega

/-- Witness for C9: a loaded scheduler, its snapshot entry for
`repo-a`, and an `executeFetch` for `repo-a` afterwards. -/
theorem getStatus_snapshot_immutable_witness :
    WF (Scheduler.init.loadConfig cfgA 0) ∧
    ("repo-a", 1) ∈ ((Scheduler.init.loadConfig cfgA 0).getStatus).1 ∧
    ((((Scheduler.init.loadConfig cfgA 0).getStatus).2).executeFetch "repo-a" resOkA 7).heap 1
      = (((Scheduler.init.loadConfig cfgA 0).getStatus).2).heap 1 :=
  ⟨by decide, by decide,
   getStatus_snapshot_immutable (Scheduler.init.loadConfig cfgA 0) (by decide)
     "repo-a" 1 (by decide) "repo-a" resOkA 7⟩

/-! ### The inductive invariant of the interleaving semantics -/

/-- `LoadConfig`'s start loop preserves the invariant. -/
theorem inv_allocRepo (now : Int) (s : Scheduler) (r : RepoConfig) (h : Inv s) :
    Inv (allocRepo now s r) := by
  obtain ⟨hwf, hcnt⟩ := h
  constructor
  · intro kv hkv
    rcases mem_mapInsert hkv with rfl | hkv2
    · show s.next < s.next + 1
      omega
    · have := hwf _ hkv2
      show kv.2 < s.next + 1
      omega
  · intro kv hkv
    rcases mem_mapInsert hkv with rfl | hkv2
    · simp [allocRepo, writeHeap]
    · have hlt := hwf _ hkv2
      have hne : kv.2 ≠ s.next := by omega
      simp only [allocRepo, writeHeap]
      rw [if_neg hne]
      exact hcnt _ hkv2

/-- Invariant preservation along the whole start loop. -/
theorem inv_foldl_alloc (now : Int) (rs : List RepoConfig) :
    ∀ s, Inv s → Inv (rs.foldl (allocRepo now) s) := by
  induction rs with
  | nil => intro s h; exact h
  | cons r rs ih => intro s h; exact ih _ (inv_allocRepo now s r h)

/-- A scheduler with an empty live map satisfies the invariant. -/
theorem inv_empty_repos (s : Scheduler) : Inv { s with repos := [] } := by
  constructor <;> intro kv hkv <;> cases hkv

/-- `LoadConfig` establishes the invariant from any prior state. -/
theorem inv_loadConfig (s : Scheduler) (cfg : Config) (now : Int) :
    Inv (s.loadConfig cfg now) :=
  inv_foldl_alloc now cfg.repos _ (inv_empty_repos s)

/-- The copy loop only writes to fresh cells. -/
theorem getStatusAux_heap_low (l : List (String × Nat)) :
    ∀ (acc : List (String × Nat)) (s : Scheduler) (c : Nat), c < s.next →
      ((getStatusAux l acc s).2).heap c = s.heap c := by
  induction l with
  | nil => intro acc s c _; rfl
  | cons hd tl ih =>
    obtain ⟨k, id⟩ := hd
    intro acc s c hc
    simp only [getStatusAux]
    rw [ih _ _ _ (by show c < s.next + 1; omega)]
    simp only [writeHeap]
    rw [if_neg (by omega)]

/-- The allocation counter never decreases along the copy loop. -/
theorem getStatusAux_next_mono (l : List (String × Nat)) :
    ∀ (acc : List (String × Nat)) (s : Scheduler),
      s.next ≤ ((getStatusAux l acc s).2).next := by
  induction l with
  | nil => intro acc s; exact le_rfl
  | cons hd tl ih =>
    obtain ⟨k, id⟩ := hd
    intro acc s
    have h1 := ih (mapInsert acc k s.next)
      { s with heap := writeHeap s.heap s.next (s.heap id), next := s.next + 1 }
    simp only [getStatusAux]
    dsimp only at h1
    omega

/-- `GetStatus` preserves the invariant. -/
theorem inv_getStatus (s : Scheduler) (h : Inv s) : Inv ((s.getStatus).2) := by
  obtain ⟨hwf, hcnt⟩ := h
  constructor
  · intro kv hkv
    rw [show ((s.getStatus).2).repos = s.repos from getStatusAux_snd_repos _ _ _] at hkv
    have h1 := hwf _ hkv
    have h2 := getStatusAux_next_mono s.repos [] s
    show kv.2 < ((getStatusAux s.repos [] s).2).next
    omega
  · intro kv hkv
    rw [show ((s.getStatus).2).repos = s.repos from getStatusAux_snd_repos _ _ _] at hkv
    have h1 := hwf _ hkv
    show ((getStatusAux s.repos [] s).2.heap kv.2).successCount
        + ((getStatusAux s.repos [] s).2.heap kv.2).failCount
        = ((getStatusAux s.repos [] s).2.heap kv.2).fetchCount
    rw [getStatusAux_heap_low _ _ _ _ h1]
    exact hcnt _ hkv

/-- Setting the `IsRunning` flag preserves the invariant. -/
theorem inv_startHit (g : GState) (i : Nat) (name : String) (id : Nat) (lp : String)
    (h : Inv g.sched) : Inv ((doStartHit g i name id lp).sched) := by
  obtain ⟨hwf, hcnt⟩ := h
  constructor
  · intro kv hkv
    exact hwf _ hkv
  · intro kv hkv
    have h0 := hcnt _ hkv
    by_cases hkvid : kv.2 = id
    · subst hkvid
      simp only [doStartHit, writeHeap]
      simpa using h0
    · simp only [doStartHit, writeHeap]
      rw [if_neg hkvid]
      exact h0

/-- `updateNextFetch` only touches the `NextFetch` field. -/
theorem counters_updateNextFetch (s : Scheduler) (name : String) (st : RepoStatus)
    (now : Int) :
    (updateNextFetch s name st now).successCount = st.successCount ∧
    (updateNextFetch s name st now).failCount = st.failCount ∧
    (updateNextFetch s name st now).fetchCount = st.fetchCount := by
  cases h : List.lookup name s.repos with
  | none => simp [updateNextFetch, h]
  | some id2 =>
    cases h2 : parseDuration (s.heap id2).interval with
    | ok d => simp [updateNextFetch, h, h2]
    | error e => simp [updateNextFetch, h, h2]

/-- The statistics block preserves the invariant (it increments
`FetchCount` and exactly one of the other two counters, atomically). -/
theorem inv_execFetchFinish (s : Scheduler) (name : String) (id : Nat)
    (res : FetchResult) (now : Int) (h : Inv s) :
    Inv (execFetchFinish s name id res now) := by
  obtain ⟨hwf, hcnt⟩ := h
  refine ⟨fun kv hkv => hwf _ hkv, ?_⟩
  intro kv hkv
  simp only [execFetchFinish, writeHeap]
  by_cases hkvid : kv.2 = id
  · rw [if_pos hkvid]
    obtain ⟨h1, h2, h3⟩ := counters_updateNextFetch s name (applyResult (s.heap id) res) now
    rw [h1, h2, h3]
    have h0 := hcnt _ hkv
    rw [hkvid] at h0
    cases hres : res.success <;> simp [applyResult, hres] <;> omega
  · rw [if_neg hkvid]
    exact hcnt _ hkv

/-- Every atomic step preserves the invariant. -/
theorem step_inv {g g2 : GState} (hs : Step g g2) (h : Inv g.sched) : Inv g2.sched := by
  cases hs with
  | load cfg now => exact inv_loadConfig _ _ _
  | spawnManual name id hlk => exact h
  | spawnWorker name lp => exact h
  | startMiss i name lp h1 h2 => exact h
  | startHit i name lp id h1 h2 => exact inv_startHit g i name id lp h
  | finish i name id lp res now h1 => exact inv_execFetchFinish g.sched name id res now h
  | status => exact inv_getStatus _ h

/-- The invariant holds in every reachable state. -/
theorem reachable_inv {g : GState} (h : Reachable g) : Inv g.sched := by
  induction h with
  | refl => constructor <;> intro kv hkv <;> cases hkv
  | tail hab hbc ih => exact step_inv hbc ih

/-- C3: in every reachable state — immediately after `LoadConfig`
creates a runtime state, after every `executeFetch`, and at every
interleaving point in between — every live runtime state satisfies
`SuccessCount + FailCount = FetchCount`. -/
theorem counters_invariant (g : GState) (h : Reachable g) :
    ∀ kv ∈ g.sched.repos,
      (g.sched.heap kv.2).successCount + (g.sched.heap kv.2).failCount
        = (g.sched.heap kv.2).fetchCount :=
  (reachable_inv h).2

/-! ### A concrete run with two racing ManualFetch goroutines -/

/-- One `LoadConfig` step. -/
theorem reach_g1 : Reachable g1 :=
  Relation.ReflTransGen.single (Step.load gInit cfgA 0)

/-- First `ManualFetch "repo-a"`. -/
theorem reach_g2 : Reachable g2 :=
  reach_g1.tail (Step.spawnManual g1 "repo-a" 0 (by decide))

/-- Second `ManualFetch "repo-a"`. -/
theorem reach_g3 : Reachable g3 :=
  reach_g2.tail (Step.spawnManual g2 "repo-a" 0 (by decide))

/-- The first goroutine passes `executeFetch`'s entry section. -/
theorem reach_g4 : Reachable g4 :=
  reach_g3.tail (Step.startHit g3 0 "repo-a" "/repos/a.git" 0 (by decide) (by decide))

/-- The second goroutine passes the entry section as well: the
`IsRunning` flag is already `true`, but nothing checks it. -/
theorem reach_g5 : Reachable g5 :=
  reach_g4.tail (Step.startHit g4 1 "repo-a" "/repos/a.git" 0 (by decide) (by decide))

/-- The first goroutine completes. -/
theorem reach_g6 : Reachable g6 :=
  reach_g5.tail (Step.finish g5 0 "repo-a" 0 "/repos/a.git" resOkA 10 (by decide))

/-- The second goroutine completes. -/
theorem reach_g7 : Reachable g7 :=
  reach_g6.tail (Step.finish g6 0 "repo-a" 0 "/repos/a.git" resOkA 11 (by decide))

/-- C1 (exhibiting the code bug): from a freshly loaded scheduler, two
`ManualFetch "repo-a"` invocations reach a state in which two goroutines
are inside the Sync Executor `fetcher.Fetch` for the same identity at
the same time — the second caller is neither blocked nor coalesced nor
rejected.  Both runs are counted: afterwards `FetchCount = 2`. -/
theorem manualFetch_concurrent_double_execution :
    Reachable g5 ∧ 2 ≤ fetchingCount g5 "repo-a" ∧
    Reachable g7 ∧ fetchingCount g7 "repo-a" = 0 ∧
    (g7.sched.heap 0).fetchCount = 2 ∧
    (g7.sched.heap 0).successCount = 2 :=
  ⟨reach_g5, by decide, reach_g7, by decide, by decide, by decide⟩

/-- Witness for C3 at the end of the concrete run (two completed
fetches, counters 2 + 0 = 2). -/
theorem counters_invariant_witness :
    Reachable g7 ∧
    ∀ kv ∈ g7.sched.repos,
      (g7.sched.heap kv.2).successCount + (g7.sched.heap kv.2).failCount
        = (g7.sched.heap kv.2).fetchCount :=
  ⟨reach_g7, counters_invariant g7 reach_g7⟩

/-! ### Idempotency of the record-style executor -/

/-- Upserting a record for an absent ID leaves exactly one row for it. -/
theorem recordsFor_upsert_absent (t : List SyncRecord) (r : SyncRecord)
    (h : isSynced t r.redmineIssueID = false) :
    recordsFor (upsertRecord t r) r.redmineIssueID = 1 := by
  induction t with
  | nil => simp [upsertRecord, recordsFor]
  | cons row rest ih =>
    simp only [isSynced, List.any_cons, Bool.or_eq_false_iff] at h
    obtain ⟨h1, h2⟩ := h
    have hne : row.redmineIssueID ≠ r.redmineIssueID := by simpa using h1
    have hrest := ih (by simpa [isSynced] using h2)
    simp only [upsertRecord, if_neg hne, recordsFor, List.filter_cons, h1]
    simpa [recordsFor] using hrest

/-- After an upsert the ID reads as synced. -/
theorem isSynced_upsert (t : List SyncRecord) (r : SyncRecord) :
    isSynced (upsertRecord t r) r.redmineIssueID = true := by
  induction t with
  | nil => simp [upsertRecord, isSynced]
  | cons row rest ih =>
    by_cases h : row.redmineIssueID = r.redmineIssueID
    · simp [upsertRecord, h, isSynced]
    · simp only [upsertRecord, if_neg h, isSynced, List.any_cons]
      simp only [isSynced] at ih
      rw [ih]
      simp

/-- C2: running `syncIssue` twice in sequence for the same originating
issue (with the external creation succeeding on the first run) performs
exactly one `github.CreateIssue` call and leaves exactly one idempotency
record for the issue's ID; the second call sees `IsSynced`, performs no
external call, changes nothing, and returns success. -/
theorem syncIssue_idempotent (cfg : SyncConfig) (redmineURL : String) (issue : Issue)
    (project : ProjectConfig) (env1 env2 : SyncEnv) (now1 now2 : Int) (st : SyncState)
    (gh : GHIssue)
    (h0 : isSynced st.table issue.id = false)
    (hrepo : issue.getCustomFieldValue project.customFields.targetRepoID ≠ "")
    (hslash : strContains (issue.getCustomFieldValue project.customFields.targetRepoID)
      '/' = true)
    (hgh : env1.createResult = some gh) :
    (syncIssue cfg redmineURL issue project env1 now1 st).1 = none ∧
    ((syncIssue cfg redmineURL issue project env1 now1 st).2.2.filter
      isCreateEvent).length = 1 ∧
    recordsFor (syncIssue cfg redmineURL issue project env1 now1 st).2.1.table
      issue.id = 1 ∧
    syncIssue cfg redmineURL issue project env2 now2
        (syncIssue cfg redmineURL issue project env1 now1 st).2.1
      = (none, (syncIssue cfg redmineURL issue project env1 now1 st).2.1, []) := by
  have h1 : syncIssue cfg redmineURL issue project env1 now1 st
      = (none,
         { st with
           table := upsertRecord st.table
             { redmineIssueID := issue.id
               redmineProject := project.identifier
               githubRepo := issue.getCustomFieldValue project.customFields.targetRepoID
               githubIssueNumber := gh.number
               githubIssueURL := gh.htmlURL
               syncedAt := now1 } },
         [SyncEvent.createIssue
            (issue.getCustomFieldValue project.customFields.targetRepoID)
            { title := buildTitle cfg.titleFormat issue.id issue.subject
              body := buildGitHubIssueBody redmineURL issue
              labels := mapLabels issue },
          SyncEvent.updateField issue.id project.customFields.githubIssueURLID
            gh.htmlURL]) := by
    unfold syncIssue
    rw [h0]
    simp only [Bool.false_eq_true, if_false, if_neg hrepo, hslash, Bool.not_true,
      Bool.false_eq_true, if_false, hgh]
  refine ⟨?_, ?_, ?_, ?_⟩
  · rw [h1]
  · rw [h1]
    simp [isCreateEvent]
  · rw [h1]
    exact recordsFor_upsert_absent st.table _ h0
  · rw [h1]
    unfold syncIssue
    rw [show isSynced (upsertRecord st.table _) issue.id = true from
      isSynced_upsert st.table _]
    simp

/-- Witness for C2 at a concrete issue, project and environment. -/
theorem syncIssue_idempotent_witness :
    isSynced st0.table issue42.id = false ∧
    ((syncIssue syncCfg "https://redmine.example.com" issue42 projectX envOk 100 st0).1
       = none ∧
     ((syncIssue syncCfg "https://redmine.example.com" issue42 projectX envOk 100
        st0).2.2.filter isCreateEvent).length = 1 ∧
     recordsFor (syncIssue syncCfg "https://redmine.example.com" issue42 projectX envOk
        100 st0).2.1.table issue42.id = 1 ∧
     syncIssue syncCfg "https://redmine.example.com" issue42 projectX envOther 200
         (syncIssue syncCfg "https://redmine.example.com" issue42 projectX envOk 100
           st0).2.1
       = (none,
          (syncIssue syncCfg "https://redmine.example.com" issue42 projectX envOk 100
            st0).2.1, [])) :=
  ⟨rfl,
   syncIssue_idempotent syncCfg "https://redmine.example.com" issue42 projectX envOk
     envOther 100 200 st0
     { number := 9, htmlURL := "https://github.com/octo/repo/issues/9" }
     rfl (by decide) (by decide) rfl⟩

/-! ### Webhook signature gate -/

/-- C4: with a secret configured, a missing `X-Webhook-Signature`
header or a digest mismatch yields HTTP 401 and no `SyncSpecificIssue`
invocation; a verified signature proceeds; with no secret configured the
check is skipped and the trigger proceeds.  Parametric in the HMAC
digest function `mac` (whose constant-time execution is a property of
the `hmac.Equal` primitive; extensionally it is byte equality) and the
JSON parser. -/
theorem webhook_signature_gate
    (mac : String → String → String)
    (parseJSON : String → Option IssueChangedPayload)
    (secret : String) (req : WebhookRequest) (hpost : req.method = "POST") :
    (secret ≠ "" → req.signatureHeader = none →
      handleIssueChanged mac parseJSON secret req = (401, none)) ∧
    (secret ≠ "" → ∀ sig, req.signatureHeader = some sig →
      trimSigScheme sig ≠ mac secret req.body →
      handleIssueChanged mac parseJSON secret req = (401, none)) ∧
    (secret = "" →
      handleIssueChanged mac parseJSON secret req =
        (match parseJSON req.body with
         | none => (400, none)
         | some p => (200, some (p.issueID, p.projectIdentifier)))) ∧
    (verifySignature mac secret req.body (headerGet req.signatureHeader) = true →
      handleIssueChanged mac parseJSON secret req =
        (match parseJSON req.body with
         | none => (400, none)
         | some p => (200, some (p.issueID, p.projectIdentifier)))) := by
  refine ⟨?_, ?_, ?_, ?_⟩
  · intro hs hh
    simp [handleIssueChanged, hpost, hh, headerGet, verifySignature, hs]
  · intro hs sig hh hneq
    by_cases hse : sig = ""
    · simp [handleIssueChanged, hpost, hh, headerGet, verifySignature, hs, hse]
    · simp [handleIssueChanged, hpost, hh, headerGet, verifySignature, hs, hse, hneq]
  · intro hs
    subst hs
    simp [handleIssueChanged, hpost]
  · intro hv
    simp [handleIssueChanged, hpost, hv]

/-- Witness for C4: the concrete digest stand-in, a POST with no
header, one with a wrong signature, one with the right signature, and
the no-secret case. -/
theorem webhook_signature_gate_witness :
    handleIssueChanged macConst parse42 "s3cret" reqNoSig = (401, none) ∧
    handleIssueChanged macConst parse42 "s3cret" reqBadSig = (401, none) ∧
    handleIssueChanged macConst parse42 "s3cret" reqGoodSig = (200, some (42, "proj-x")) ∧
    handleIssueChanged macConst parse42 "" reqBadSig = (200, some (42, "proj-x")) :=
  ⟨(webhook_signature_gate macConst parse42 "s3cret" reqNoSig rfl).1
     (by decide) rfl,
   (webhook_signature_gate macConst parse42 "s3cret" reqBadSig rfl).2.1
     (by decide) "sha256=bbbb" rfl (by decide),
   by
     have h := (webhook_signature_gate macConst parse42 "s3cret" reqGoodSig rfl).2.2.2
       (by decide)
     simpa [parse42] using h,
   by
     have h := (webhook_signature_gate macConst parse42 "" reqBadSig rfl).2.2.1 rfl
     simpa [parse42] using h⟩

/-! ### Duck-typed custom-field values -/

/-- `GetCustomFieldValue` on a list with no matching ID. -/
theorem getCFV_absent (cfs : List CustomField) (fid : Int)
    (h : ∀ c ∈ cfs, c.id ≠ fid) : getCFV cfs fid = "" := by
  induction cfs with
  | nil => rfl
  | cons c rest ih =>
    have hc : c.id ≠ fid := h c (List.mem_cons_self _ _)
    simp only [getCFV, if_neg hc]
    exact ih fun c2 hc2 => h c2 (List.mem_cons_of_mem _ hc2)

/-- `GetCustomFieldValue` finds the first field with the requested ID
and renders its value with the `switch`. -/
theorem getCFV_found (pre : List CustomField) (cf : CustomField)
    (post : List CustomField) (fid : Int)
    (hpre : ∀ c ∈ pre, c.id ≠ fid) (hid : cf.id = fid) :
    getCFV (pre ++ cf :: post) fid = cfRender cf.value := by
  induction pre with
  | nil =>
    simp only [List.nil_append, getCFV, if_pos hid]
    cases cf.value <;> rfl
  | cons c rest ih =>
    have hc : c.id ≠ fid := hpre c (List.mem_cons_self _ _)
    simp only [List.cons_append, getCFV, if_neg hc]
    exact ih fun c2 hc2 => hpre c2 (List.mem_cons_of_mem _ hc2)

/-- C10: `GetCustomFieldValue` returns a string value unchanged, a
numeric value formatted with zero decimal places (42.0 renders as
"42"), and the empty string when the field is absent or its value is
JSON null; consequently `syncIssue` treats an issue whose target-repo
field is absent or null as having no target and skips it as a
success, with no external call and no state change. -/
theorem getCustomFieldValue_spec (i : Issue) (fid : Int) :
    ((∀ c ∈ i.customFields, c.id ≠ fid) → i.getCustomFieldValue fid = "") ∧
    (∀ pre cf post, i.customFields = pre ++ cf :: post →
      (∀ c ∈ pre, c.id ≠ fid) → cf.id = fid →
      i.getCustomFieldValue fid = cfRender cf.value) ∧
    (∀ s, cfRender (CFValue.str s) = s) ∧
    (∀ q, cfRender (CFValue.num q) = goFormatF0 q) ∧
    cfRender CFValue.nil = "" ∧
    goFormatF0 42 = "42" ∧
    (∀ cfg redmineURL project env now st,
      project.customFields.targetRepoID = fid →
      isSynced st.table i.id = false →
      i.getCustomFieldValue fid = "" →
      syncIssue cfg redmineURL i project env now st = (none, st, [])) := by
  refine ⟨?_, ?_, fun s => rfl, fun q => rfl, rfl, by decide, ?_⟩
  · intro h
    exact getCFV_absent _ _ h
  · intro pre cf post hsplit hpre hid
    show getCFV i.customFields fid = cfRender cf.value
    rw [hsplit]
    exact getCFV_found pre cf post fid hpre hid
  · intro cfg redmineURL project env now st htr hsync hempty
    unfold syncIssue
    rw [hsync]
    simp only [Bool.false_eq_true, if_false]
    rw [htr, if_pos hempty]

/-- Witness for C10: the numeric, string, null and absent cases on the
concrete issues, and the skip-as-success consequence. -/
theorem getCustomFieldValue_spec_witness :
    issue42.getCustomFieldValue 3 = "42" ∧
    issue42.getCustomFieldValue 1 = "octo/repo" ∧
    issueNoTarget.getCustomFieldValue 1 = "" ∧
    issueNoTarget.getCustomFieldValue 99 = "" ∧
    syncIssue syncCfg "https://redmine.example.com" issueNoTarget projectX envOk 5 st0
      = (none, st0, []) := by
  refine ⟨?_, ?_, ?_, ?_, ?_⟩
  · have h := (getCustomFieldValue_spec issue42 3).2.1
      [{ id := 1, name := "Target Repo", value := CFValue.str "octo/repo",
         multiple := false }]
      { id := 3, name := "Estimate", value := CFValue.num 42, multiple := false }
      [] rfl (by decide) rfl
    rw [h]
    decide
  · have h := (getCustomFieldValue_spec issue42 1).2.1
      []
      { id := 1, name := "Target Repo", value := CFValue.str "octo/repo",
        multiple := false }
      [{ id := 3, name := "Estimate", value := CFValue.num 42, multiple := false }]
      rfl (by decide) rfl
    rw [h]
    rfl
  · have h := (getCustomFieldValue_spec issueNoTarget 1).2.1
      []
      { id := 1, name := "Target Repo", value := CFValue.nil, multiple := false }
      [] rfl (by decide) rfl
    rw [h]
    rfl
  · exact (getCustomFieldValue_spec issueNoTarget 99).1 (by decide)
  · exact (getCustomFieldValue_spec issueNoTarget 1).2.2.2.2.2.2 syncCfg
      "https://redmine.example.com" projectX envOk 5 st0 rfl rfl
      ((getCustomFieldValue_spec issueNoTarget 1).2.1 []
        { id := 1, name := "Target Repo", value := CFValue.nil, multiple := false }
        [] rfl (by decide) rfl)

end RedmineGit
